import Mathlib

/-!
A verification development for the multi-source retrieval-and-tool-routing
core of the AgenticAI repository (main implementation: `Multiagent.py`).

Text is modelled as `List Char`.  External library calls (document loaders,
OCR, pandas readers, the embedding model, the per-tool LLM chains) are
modelled as oracle parameters bundled in `Oracles`; everything that the
repository's own code decides (suffix dispatch, the per-file try/except
loop, tool construction, the empty-registry short-circuit) is translated
directly from the source.  The chunker, the vector index, the registry
`invoke` operation and the reasoning-agent loop live in the LangChain
dependency, not in the repository; they are modelled from the spec
(sections 4.2, 4.3, 4.4, 4.5) where noted.
-/

set_option autoImplicit false

/-- Lowercase a string, modelling Python `str.lower()` on filenames
(`filename = file.name.lower()`, Multiagent.py line 48). -/
def lowerStr (s : List Char) : List Char := s.map Char.toLower

/-- The file-type dispatch chain of Multiagent.py lines 56-104: suffix
checks on the lowercased filename, in source order. -/
inductive FileType where
  | pdf
  | docx
  | pptx
  | image
  | spreadsheet
  | unsupported
deriving DecidableEq, Repr

/-- Suffix dispatch translated from the `elif` chain (Multiagent.py
lines 56, 62, 68, 74, 81): the argument is the already-lowercased name. -/
def fileTypeOf (filename : List Char) : FileType :=
  if ".pdf".data.isSuffixOf filename then .pdf
  else if ".docx".data.isSuffixOf filename then .docx
  else if ".pptx".data.isSuffixOf filename then .pptx
  else if ".jpg".data.isSuffixOf filename ∨ ".jpeg".data.isSuffixOf filename
          ∨ ".png".data.isSuffixOf filename then .image
  else if ".csv".data.isSuffixOf filename ∨ ".xls".data.isSuffixOf filename
          ∨ ".xlsx".data.isSuffixOf filename then .spreadsheet
  else .unsupported

/-- The artifact kinds of the spec data model (section 3). -/
inductive ArtifactKind where
  | document
  | spreadsheet
  | presentation
  | image
  | unknown
deriving DecidableEq, Repr

/-- Spec-level kind of a file type: `.pdf`/`.docx` are documents,
`.pptx` presentations, `.csv`/`.xls`/`.xlsx` spreadsheets. -/
def kindOfType : FileType → ArtifactKind
  | .pdf => .document
  | .docx => .document
  | .pptx => .presentation
  | .image => .image
  | .spreadsheet => .spreadsheet
  | .unsupported => .unknown

/-- Classification of an uploaded file name: lowercase first
(Multiagent.py line 48), then the suffix chain. -/
def classifyName (name : List Char) : ArtifactKind :=
  kindOfType (fileTypeOf (lowerStr name))

/-- One uploaded artifact: display name and raw byte payload. -/
structure UploadedFile where
  name : List Char
  payload : List Nat

/-- A Python value reaching the `documents` variable: a raw `str`, a
LangChain `Document` (has a `page_content` attribute), or a plain `dict`
(no attributes).  Multiagent.py line 78 builds `[{"page_content": text}]`,
a dict, for images; the loaders return `Document`s. -/
inductive PyDoc where
  | strv (s : List Char)
  | document (page_content : List Char)
  | dict (page_content : List Char)
deriving DecidableEq, Repr

/-- Attribute access `doc.page_content` as performed inside LangChain's
`split_documents`: succeeds on `Document`, raises `AttributeError` on a
plain `dict` or a raw `str`. -/
def pageContentAttr : PyDoc → Except (List Char) (List Char)
  | .document s => .ok s
  | .dict _ => .error "AttributeError: dict object has no attribute page_content".data
  | .strv _ => .error "AttributeError: str object has no attribute page_content".data

/-- Chunker worker, structurally recursive on fuel.  `splitText` below
supplies fuel `text.length`, which is enough for every iteration (each
step drops `max_size - overlap ≥ 1` characters).
Modelled from the spec: the chunker (`RecursiveCharacterTextSplitter`,
configured `chunk_size=1000, chunk_overlap=200` at Multiagent.py line 107)
is LangChain code, modelled per spec section 4.2 as overlapping fixed-size
windows. -/
def splitGo (maxSize overlap : Nat) : Nat → List Char → List (List Char)
  | 0, text => [text]
  | fuel + 1, text =>
    if maxSize ≤ overlap then [text]
    else if text.length ≤ maxSize then [text]
    else text.take maxSize :: splitGo maxSize overlap fuel (text.drop (maxSize - overlap))

/-- Modelled from the spec: `split(text, max_size, overlap)` of section
4.2 — deterministic overlapping fixed-size windows over the text. -/
def splitText (maxSize overlap : Nat) (text : List Char) : List (List Char) :=
  splitGo maxSize overlap text.length text

/-- De-overlapped concatenation: the first chunk whole, every later chunk
with its leading `overlap` characters removed. -/
def rejoin (overlap : Nat) : List (List Char) → List Char
  | [] => []
  | c :: cs => c ++ (cs.map (fun d => d.drop overlap)).flatten

/-- The overlap relation between two consecutive chunks: the trailing
`overlap` characters of the first equal the leading `overlap` characters
of the second, and that shared region has length exactly `overlap`. -/
def overlapRel (overlap : Nat) (a b : List Char) : Prop :=
  a.drop (a.length - overlap) = b.take overlap ∧ (b.take overlap).length = overlap

/-- Modelled from the spec: LangChain `split_documents` — read each
document's `page_content` attribute, split each text, concatenate the
chunk lists. -/
def splitDocumentsModel (maxSize overlap : Nat) (docs : List PyDoc) :
    Except (List Char) (List (List Char)) :=
  match docs with
  | [] => .ok []
  | d :: rest =>
    match pageContentAttr d, splitDocumentsModel maxSize overlap rest with
    | .error e, _ => .error e
    | .ok _, .error e => .error e
    | .ok s, .ok tail => .ok (splitText maxSize overlap s ++ tail)

/-- A vector index: each chunk paired with its embedding vector
(modelled as a single natural — a fixed-dimension-1 numeric vector). -/
abbrev VectorIndex : Type := List (List Char × Nat)

/-- The message of the `IndexBuildError` failure of spec section 4.3. -/
def indexBuildErrorMsg : List Char := "IndexBuildError: cannot build index from empty chunk sequence".data

/-- Modelled from the spec: `build(chunks)` of section 4.3
(`FAISS.from_documents` in the source is external library code): embed
every chunk with the session embedding function; fail with
`IndexBuildError` when `chunks` is empty. -/
def buildIndex (embed : List Char → Nat) (chunks : List (List Char)) :
    Except (List Char) VectorIndex :=
  match chunks with
  | [] => .error indexBuildErrorMsg
  | c :: cs => .ok ((c :: cs).map (fun t => (t, embed t)))

/-- Absolute difference of two naturals, the 1-dimensional distance used
by the modelled nearest-neighbor lookup. -/
def distN (a b : Nat) : Nat := (a - b) + (b - a)

/-- Insertion step of the distance sort used by `queryIndex`. -/
def insertByKey (key : List Char × Nat → Nat) (x : List Char × Nat) :
    List (List Char × Nat) → List (List Char × Nat)
  | [] => [x]
  | y :: ys => if key x ≤ key y then x :: y :: ys else y :: insertByKey key x ys

/-- Insertion sort by a numeric key (ascending distance = descending
similarity). -/
def sortByKey (key : List Char × Nat → Nat) : List (List Char × Nat) → List (List Char × Nat)
  | [] => []
  | x :: xs => insertByKey key x (sortByKey key xs)

/-- Modelled from the spec: `query(index, text, k)` of section 4.3 —
embed the query text with the same embedding function used at build time,
order the indexed chunks by ascending distance, return the first `k`. -/
def queryIndex (embed : List Char → Nat) (idx : VectorIndex) (text : List Char) (k : Nat) :
    List (List Char) :=
  ((sortByKey (fun p => distN p.2 (embed text)) idx).take k).map (fun p => p.1)

/-- A registered tool: name, description and invocation behavior
(Multiagent.py lines 94-99 and 117-121). -/
structure Tool where
  name : List Char
  description : List Char
  func : List Char → Except (List Char) (List Char)

/-- Registration as the source performs it: `tools.append(tool)`
(Multiagent.py lines 99 and 122) — plain append, no uniqueness check. -/
def register (tools : List Tool) (t : Tool) : List Tool := tools ++ [t]

/-- Registry invocation errors (spec section 4.4 / section 7). -/
inductive RegError where
  | unknownTool (name : List Char)
  | invocationFailed (msg : List Char)

/-- Modelled from the spec: `invoke(name, query)` of section 4.4 — look
the name up in the registry (insertion order), fail with an
`UnknownToolError` when the name is not registered, otherwise run the
tool and surface its failure, if any, as an invocation failure. -/
def invokeTool (tools : List Tool) (name query : List Char) : Except RegError (List Char) :=
  match tools.find? (fun t => decide (t.name = name)) with
  | none => .error (.unknownTool name)
  | some t =>
    match t.func query with
    | .ok s => .ok s
    | .error m => .error (.invocationFailed m)

/-- The external collaborators of the ingestion loop: document loaders,
OCR, pandas readers, the session embedding function, and the per-tool
LLM-backed answer functions.  Each may fail with a message. -/
structure Oracles where
  loadPdf : UploadedFile → Except (List Char) (List PyDoc)
  loadDocx : UploadedFile → Except (List Char) (List PyDoc)
  loadPptx : UploadedFile → Except (List Char) (List PyDoc)
  ocrImage : UploadedFile → Except (List Char) (List Char)
  readCsv : UploadedFile → Except (List Char) (List (List (List Char)))
  readExcel : UploadedFile → Except (List Char) (List (List (List Char)))
  embed : List Char → Nat
  qaAnswer : List Char → List Char → Except (List Char) (List Char)
  dfAgentRun : List Char → List Char → Except (List Char) (List Char)

/-- The vectorization stage, Multiagent.py lines 107-115: test whether
`documents[0]` is a raw `str` (raising `IndexError` on an empty list,
exactly as the Python subscript would), split accordingly, then build the
index.  Chunker configured `chunk_size=1000, chunk_overlap=200`. -/
def vectorStage (o : Oracles) (documents : List PyDoc) : Except (List Char) VectorIndex :=
  match documents with
  | [] => .error "IndexError: list index out of range".data
  | d :: rest =>
    match
      (match d with
       | .strv s => Except.ok (splitText 1000 200 s)
       | _ => splitDocumentsModel 1000 200 (d :: rest)) with
    | .error e => .error e
    | .ok docs => buildIndex o.embed docs

/-- Warning emitted for an unsupported file (Multiagent.py line 103). -/
def unsupportedMsg (filename : List Char) : List Char :=
  "Unsupported file type: ".data ++ filename

/-- Error report of the per-file except handler (Multiagent.py line 125). -/
def processErrMsg (filename e : List Char) : List Char :=
  "Error processing ".data ++ filename ++ ": ".data ++ e

/-- The retrieval tool registered for a text-bearing artifact
(Multiagent.py lines 117-121). -/
def qaTool (o : Oracles) (filename : List Char) : Tool :=
  { name := "QA Tool - ".data ++ filename
    description := "Use this to answer questions from ".data ++ filename ++ ".".data
    func := o.qaAnswer filename }

/-- The tabular tool registered for a spreadsheet artifact
(Multiagent.py lines 94-98). -/
def spreadsheetTool (o : Oracles) (filename : List Char) : Tool :=
  { name := "Spreadsheet - ".data ++ filename
    description := "Use this to answer questions about spreadsheet ".data ++ filename ++ ".".data
    func := o.dfAgentRun filename }

/-- Outcome of processing one uploaded file: a registered tool, a
reported skip (unsupported type), or a reported error (except handler). -/
inductive ProcessResult where
  | tool (t : Tool)
  | skipUnsupported (msg : List Char)
  | errorReport (msg : List Char)

/-- Shared tail of the document branches (Multiagent.py lines 56-72 then
106-122): loader outcome → vectorization → QA tool, with loader or stage
failures landing in the per-file except handler. -/
def docBranch (o : Oracles) (filename : List Char)
    (loaded : Except (List Char) (List PyDoc)) : ProcessResult :=
  match loaded with
  | .error e => .errorReport (processErrMsg filename e)
  | .ok documents =>
    match vectorStage o documents with
    | .error e => .errorReport (processErrMsg filename e)
    | .ok _ => .tool (qaTool o filename)

/-- Processing of one uploaded file, translated from the loop body of
Multiagent.py lines 47-125: lowercase the name, dispatch on suffix,
run the branch, catch any failure as a per-file error report. -/
def processFile (o : Oracles) (f : UploadedFile) : ProcessResult :=
  let filename := lowerStr f.name
  match fileTypeOf filename with
  | .pdf => docBranch o filename (o.loadPdf f)
  | .docx => docBranch o filename (o.loadDocx f)
  | .pptx => docBranch o filename (o.loadPptx f)
  | .image =>
    match o.ocrImage f with
    | .error e => .errorReport (processErrMsg filename e)
    | .ok text => docBranch o filename (.ok [PyDoc.dict text])
  | .spreadsheet =>
    match (if ".csv".data.isSuffixOf filename then o.readCsv f else o.readExcel f) with
    | .error e => .errorReport (processErrMsg filename e)
    | .ok _df => .tool (spreadsheetTool o filename)
  | .unsupported => .skipUnsupported (unsupportedMsg filename)

/-- The tool a process result contributes to the registry, if any. -/
def toolOf : ProcessResult → Option Tool
  | .tool t => some t
  | .skipUnsupported _ => none
  | .errorReport _ => none

/-- The ingestion loop of Multiagent.py lines 44-125: process the files
in order, collecting registered tools and reported messages. -/
def ingestFiles (o : Oracles) : List UploadedFile → List Tool × List (List Char)
  | [] => ([], [])
  | f :: fs =>
    let rest := ingestFiles o fs
    match processFile o f with
    | .tool t => (t :: rest.1, rest.2)
    | .skipUnsupported m => (rest.1, m :: rest.2)
    | .errorReport m => (rest.1, m :: rest.2)

/-- One recorded reasoning step of the agent state (spec section 3,
`AgentState`): thought, chosen tool name, sub-query, observation. -/
structure Step where
  thought : List Char
  toolName : List Char
  subQuery : List Char
  observation : List Char

/-- The LLM's structured response in one thinking step (spec section
4.5): either a tool choice with a sub-query, or a final answer. -/
inductive Decision where
  | act (thought toolName subQuery : List Char)
  | finish (answer : List Char)

/-- Whether a decision is a tool choice. -/
def decisionIsAct : Decision → Bool
  | .act _ _ _ => true
  | .finish _ => false

/-- Terminal outcome of one question (spec section 4.5): `Finished` with
a final answer, or `Aborted` with an explicit textual result; both carry
the recorded step history. -/
inductive AgentOutcome where
  | finished (answer : List Char) (steps : List Step)
  | aborted (msg : List Char) (steps : List Step)

/-- The explicit "could not complete" result returned on budget
exhaustion (spec section 4.5, `Aborted`). -/
def couldNotCompleteMsg : List Char :=
  "could not complete: iteration budget exhausted without a final answer".data

/-- Observation text for a captured tool failure (spec section 4.5:
invocation failures become observations, not hard errors). -/
def failureText : RegError → List Char
  | .unknownTool n => "tool invocation failed: unknown tool ".data ++ n
  | .invocationFailed m => "tool invocation failed: ".data ++ m

/-- Modelled from the spec: the Reasoning Agent loop of section 4.5
(`initialize_agent` / `agent.run` delegate to the LangChain executor,
which is external).  `policy` is the LLM oracle: given the question and
the step history it returns a decision.  Each cycle either finishes with
the final answer or invokes the chosen tool through the registry,
capturing failures as the observation, and continues with a decremented
budget; a budget of zero aborts with an explicit textual result. -/
def runAgent (reg : List Tool) (policy : List Char → List Step → Decision)
    (question : List Char) : Nat → List Step → AgentOutcome
  | 0, hist => .aborted couldNotCompleteMsg hist
  | budget + 1, hist =>
    match policy question hist with
    | .finish a => .finished a hist
    | .act th tn q =>
      let obs := match invokeTool reg tn q with
        | .ok s => s
        | .error e => failureText e
      runAgent reg policy question budget (hist ++ [⟨th, tn, q, obs⟩])

/-- The per-question response of the core. -/
inductive Response where
  | agentResult (outcome : AgentOutcome)
  | noTools (msg : List Char)

/-- The empty-registry warning (Multiagent.py line 148). -/
def uploadWarning : List Char := "Please upload at least one supported file.".data

/-- The top-level answer path of Multiagent.py lines 127-148: when the
registry is non-empty, build the agent over it and run the question;
otherwise warn and never construct or run the agent. -/
def respond (reg : List Tool) (policy : List Char → List Step → Decision)
    (budget : Nat) (question : List Char) : Response :=
  match reg with
  | [] => .noTools uploadWarning
  | t :: ts => .agentResult (runAgent (t :: ts) policy question budget [])

/-- Number of agent steps recorded in a response. -/
def stepsOf : Response → Nat
  | .agentResult (.finished _ s) => s.length
  | .agentResult (.aborted _ s) => s.length
  | .noTools _ => 0

/-! ## Concrete instances used by witnesses -/

/-- A tool that fails on every invocation. -/
def failTool : Tool :=
  { name := "QA Tool - a.pdf".data
    description := "demo tool".data
    func := fun _ => .error "boom".data }

/-- An LLM policy that always chooses the failing tool. -/
def alwaysActPolicy : List Char → List Step → Decision :=
  fun _ _ => .act "need data".data "QA Tool - a.pdf".data "lookup".data

/-- First concrete tool for a duplicated name. -/
def toolA : Tool :=
  { name := "QA Tool - report.pdf".data
    description := "first".data
    func := fun _ => .ok "one".data }

/-- A second, differently-behaved concrete tool under the same name. -/
def toolB : Tool :=
  { name := "QA Tool - report.pdf".data
    description := "second".data
    func := fun _ => .ok "two".data }

/-- Concrete oracles: a pdf loader with one short document, working OCR
and pandas readers, a length-based embedding. -/
def noopOracles : Oracles :=
  { loadPdf := fun _ => .ok [PyDoc.document "hello world".data]
    loadDocx := fun _ => .error "loader unavailable".data
    loadPptx := fun _ => .error "loader unavailable".data
    ocrImage := fun _ => .ok "scanned text".data
    readCsv := fun _ => .ok [[['a']]]
    readExcel := fun _ => .ok [[['a']]]
    embed := fun t => t.length
    qaAnswer := fun _ _ => .ok "answer".data
    dfAgentRun := fun _ _ => .ok "answer".data }

/-- A concrete file of unknown kind. -/
def uNotes : UploadedFile := { name := "notes.txt".data, payload := [] }

/-- A concrete spreadsheet file. -/
def uCsv : UploadedFile := { name := "data.csv".data, payload := [] }

/-- A concrete file of another unknown kind. -/
def uZip : UploadedFile := { name := "archive.zip".data, payload := [] }

/-- A concrete image file. -/
def uScan : UploadedFile := { name := "scan.png".data, payload := [] }

/-- A concrete injective-on-small-sets embedding: the code point of the
first character. -/
def embedHead : List Char → Nat := fun t => (t.headD ' ').toNat

/-! ## Chunker lemmas (claims C5, C6) -/

theorem splitGo_flatten_drop (ms ov : Nat) (h : ov < ms) :
    ∀ fuel t, ((splitGo ms ov fuel t).map (fun d => d.drop ov)).flatten = t.drop ov := by
  intro fuel
  induction fuel with
  | zero => intro t; simp [splitGo]
  | succ n ih =>
    intro t
    by_cases h1 : t.length ≤ ms
    · simp [splitGo, Nat.not_le.mpr h, h1]
    · simp only [splitGo, if_neg (Nat.not_le.mpr h), if_neg h1, List.map_cons,
        List.flatten_cons, ih]
      rw [List.drop_take, List.drop_drop]
      have h2 : ms - ov + ov = ms := by omega
      rw [h2]
      have h3 : t.drop ms = (t.drop ov).drop (ms - ov) := by
        rw [List.drop_drop]
        congr 1
        omega
      rw [h3, List.take_append_drop]

theorem rejoin_splitGo (ms ov : Nat) (h : ov < ms) (fuel : Nat) (t : List Char) :
    rejoin ov (splitGo ms ov fuel t) = t := by
  cases fuel with
  | zero => simp [splitGo, rejoin]
  | succ n =>
    by_cases h1 : t.length ≤ ms
    · simp [splitGo, Nat.not_le.mpr h, h1, rejoin]
    · simp only [splitGo, if_neg (Nat.not_le.mpr h), if_neg h1, rejoin]
      rw [splitGo_flatten_drop ms ov h, List.drop_drop]
      have h2 : ms - ov + ov = ms := by omega
      rw [h2, List.take_append_drop]

theorem splitGo_length_le (ms ov : Nat) (h : ov < ms) :
    ∀ fuel t, t.length ≤ fuel → ∀ c ∈ splitGo ms ov fuel t, c.length ≤ ms := by
  intro fuel
  induction fuel with
  | zero =>
    intro t ht c hc
    simp [splitGo] at hc
    subst hc
    omega
  | succ n ih =>
    intro t ht c hc
    by_cases h1 : t.length ≤ ms
    · simp [splitGo, Nat.not_le.mpr h, h1] at hc
      subst hc
      exact h1
    · simp only [splitGo, if_neg (Nat.not_le.mpr h), if_neg h1, List.mem_cons] at hc
      rcases hc with rfl | hc
      · simp [List.length_take]
      · refine ih (t.drop (ms - ov)) ?_ c hc
        simp only [List.length_drop]
        omega

theorem splitGo_head_take (ms ov : Nat) (hov : ov ≤ ms) (fuel : Nat) (t : List Char) :
    ∃ hd tl, splitGo ms ov fuel t = hd :: tl ∧ hd.take ov = t.take ov := by
  cases fuel with
  | zero => exact ⟨t, [], by simp [splitGo], rfl⟩
  | succ n =>
    by_cases h0 : ms ≤ ov
    · exact ⟨t, [], by simp [splitGo, h0], rfl⟩
    · by_cases h1 : t.length ≤ ms
      · exact ⟨t, [], by simp [splitGo, h0, h1], rfl⟩
      · refine ⟨t.take ms, splitGo ms ov n (t.drop (ms - ov)),
          by simp [splitGo, h0, h1], ?_⟩
        rw [List.take_take, Nat.min_eq_left hov]

theorem splitGo_chain (ms ov : Nat) (h : ov < ms) :
    ∀ fuel t, List.Chain' (overlapRel ov) (splitGo ms ov fuel t) := by
  intro fuel
  induction fuel with
  | zero => intro t; simp [splitGo]
  | succ n ih =>
    intro t
    by_cases h1 : t.length ≤ ms
    · simp [splitGo, Nat.not_le.mpr h, h1]
    · simp only [splitGo, if_neg (Nat.not_le.mpr h), if_neg h1]
      obtain ⟨hd, tl, heq, htake⟩ := splitGo_head_take ms ov (Nat.le_of_lt h) n (t.drop (ms - ov))
      rw [heq, List.chain'_cons]
      constructor
      · constructor
        · rw [htake]
          have hlen : (t.take ms).length = ms := by
            rw [List.length_take]
            omega
          rw [hlen, List.drop_take]
          congr 1
          omega
        · rw [htake]
          simp only [List.length_take, List.length_drop]
          omega
      · rw [← heq]
        exact ih (t.drop (ms - ov))

/-- C5: for every text and every configuration with `overlap < max_size`,
concatenating the chunks of `split` in order, after removing each chunk's
leading overlap with its predecessor, reconstructs the original text
exactly. -/
theorem C5_chunk_reconstruction (maxSize overlap : Nat) (text : List Char)
    (h : overlap < maxSize) :
    rejoin overlap (splitText maxSize overlap text) = text :=
  rejoin_splitGo maxSize overlap h text.length text

/-- Witness for C5 at `max_size = 3`, `overlap = 1`, text `abcde`. -/
theorem C5_chunk_reconstruction_witness :
    1 < 3 ∧ rejoin 1 (splitText 3 1 "abcde".data) = "abcde".data :=
  ⟨by decide, C5_chunk_reconstruction 3 1 "abcde".data (by decide)⟩

/-- C6: for every chunk sequence produced by `split(text, max_size,
overlap)` with `overlap < max_size`, every chunk's length is at most
`max_size`, and for every pair of consecutive chunks the trailing
`overlap` characters of the first equal the leading `overlap` characters
of the second, that shared region having length exactly `overlap` (the
relation holds for all consecutive pairs, hence in particular everywhere
the claim requires it). -/
theorem C6_chunk_invariants (maxSize overlap : Nat) (text : List Char)
    (h : overlap < maxSize) :
    (∀ c ∈ splitText maxSize overlap text, c.length ≤ maxSize) ∧
    List.Chain' (overlapRel overlap) (splitText maxSize overlap text) :=
  ⟨splitGo_length_le maxSize overlap h text.length text (Nat.le_refl _),
   splitGo_chain maxSize overlap h text.length text⟩

/-- Witness for C6 at `max_size = 3`, `overlap = 1`, text `abcde`. -/
theorem C6_chunk_invariants_witness :
    1 < 3 ∧ (∀ c ∈ splitText 3 1 "abcde".data, c.length ≤ 3) ∧
    List.Chain' (overlapRel 1) (splitText 3 1 "abcde".data) :=
  ⟨by decide, (C6_chunk_invariants 3 1 "abcde".data (by decide)).1,
   (C6_chunk_invariants 3 1 "abcde".data (by decide)).2⟩

/-! ## Reasoning-agent lemmas (claims C1, C4) -/

theorem invokeTool_error_of_allFail (reg : List Tool)
    (hfail : ∀ t ∈ reg, ∀ q, ∃ m, t.func q = Except.error m) (tn q : List Char) :
    ∃ e, invokeTool reg tn q = Except.error e := by
  cases hfind : reg.find? (fun t => decide (t.name = tn)) with
  | none => exact ⟨.unknownTool tn, by simp [invokeTool, hfind]⟩
  | some t =>
    obtain ⟨m, hm⟩ := hfail t (List.mem_of_find?_eq_some hfind) q
    exact ⟨.invocationFailed m, by simp [invokeTool, hfind, hm]⟩

theorem runAgent_allFail_aux (reg : List Tool) (policy : List Char → List Step → Decision)
    (question : List Char)
    (hpol : ∀ hist, decisionIsAct (policy question hist) = true)
    (hfail : ∀ t ∈ reg, ∀ q, ∃ m, t.func q = Except.error m) :
    ∀ (n : Nat) (hist : List Step),
      ∃ h2, runAgent reg policy question n hist = .aborted couldNotCompleteMsg h2 ∧
        h2.length = hist.length + n ∧
        ∀ s ∈ h2, s ∈ hist ∨ ∃ e, s.observation = failureText e := by
  intro n
  induction n with
  | zero =>
    intro hist
    exact ⟨hist, rfl, by omega, fun s hs => Or.inl hs⟩
  | succ k ih =>
    intro hist
    cases hd : policy question hist with
    | finish a =>
      have h1 := hpol hist
      rw [hd] at h1
      simp [decisionIsAct] at h1
    | act th tn q =>
      obtain ⟨e, he⟩ := invokeTool_error_of_allFail reg hfail tn q
      obtain ⟨h2, hrun, hlen, hmem⟩ := ih (hist ++ [⟨th, tn, q, failureText e⟩])
      refine ⟨h2, ?_, ?_, ?_⟩
      · simp only [runAgent, hd, he]
        exact hrun
      · simp only [List.length_append, List.length_singleton] at hlen
        omega
      · intro s hs
        rcases hmem s hs with hsh | hse
        · rcases List.mem_append.mp hsh with h1 | h1
          · exact Or.inl h1
          · rw [List.mem_singleton] at h1
            subst h1
            exact Or.inr ⟨e, rfl⟩
        · exact Or.inr hse

/-- C1: for every question, every LLM policy that keeps choosing tools,
and every registry whose tools always fail on invocation, the agent with
iteration budget `N` stops in the `Aborted` state after exactly `N`
thinking/action cycles with the explicit could-not-complete message, every
recorded observation being a captured failure; being a total function, it
raises nothing to the caller. -/
theorem C1_agent_budget_exhaustion (reg : List Tool)
    (policy : List Char → List Step → Decision) (question : List Char) (budget : Nat)
    (hpol : ∀ hist, decisionIsAct (policy question hist) = true)
    (hfail : ∀ t ∈ reg, ∀ q, ∃ m, t.func q = Except.error m) :
    ∃ hist, runAgent reg policy question budget [] = .aborted couldNotCompleteMsg hist ∧
      hist.length = budget ∧
      ∀ s ∈ hist, ∃ e, s.observation = failureText e := by
  obtain ⟨h2, hrun, hlen, hmem⟩ := runAgent_allFail_aux reg policy question hpol hfail budget []
  refine ⟨h2, hrun, by simpa using hlen, fun s hs => ?_⟩
  rcases hmem s hs with h1 | h1
  · cases h1
  · exact h1

/-- Witness for C1: one always-failing tool, an always-acting policy,
budget 3. -/
theorem C1_agent_budget_exhaustion_witness :
    (∀ hist, decisionIsAct (alwaysActPolicy "Q".data hist) = true) ∧
    (∀ t ∈ [failTool], ∀ q, ∃ m, t.func q = Except.error m) ∧
    (∃ hist, runAgent [failTool] alwaysActPolicy "Q".data 3 [] =
        .aborted couldNotCompleteMsg hist ∧ hist.length = 3 ∧
        ∀ s ∈ hist, ∃ e, s.observation = failureText e) := by
  have hpol : ∀ hist, decisionIsAct (alwaysActPolicy "Q".data hist) = true := fun _ => rfl
  have hfail : ∀ t ∈ [failTool], ∀ q, ∃ m, t.func q = Except.error m := by
    intro t ht q
    rw [List.mem_singleton] at ht
    subst ht
    exact ⟨"boom".data, rfl⟩
  exact ⟨hpol, hfail,
    C1_agent_budget_exhaustion [failTool] alwaysActPolicy "Q".data 3 hpol hfail⟩

/-- C4: for every question, every policy and every budget, an empty tool
registry makes the core return the nothing-to-query warning without
executing any agent step. -/
theorem C4_empty_registry_short_circuit (policy : List Char → List Step → Decision)
    (budget : Nat) (question : List Char) :
    respond [] policy budget question = Response.noTools uploadWarning ∧
    stepsOf (respond [] policy budget question) = 0 :=
  ⟨rfl, rfl⟩

/-! ## Tool-registry lemmas (claim C3) -/

/-- C3 counterexample: registering a second, differently-described tool
under an already-registered name does not fail and does not leave the
registry unchanged — the source appends it silently. -/
theorem C3_duplicate_name_counterexample :
    toolB.name = toolA.name ∧
    register [toolA] toolB = [toolA, toolB] ∧
    register [toolA] toolB ≠ [toolA] := by
  refine ⟨rfl, rfl, ?_⟩
  intro hcontra
  have hlen := congrArg List.length hcontra
  simp [register] at hlen

/-- C3 amended: registering a second tool under an existing name appends
it without error — the previously registered tools are all preserved
unchanged and the registry grows by one — and invoking a name that is not
registered fails with `UnknownToolError`. -/
theorem C3_register_appends_and_unknown_tool (R : List Tool) (t : Tool)
    (name q : List Char) :
    (register R t).take R.length = R ∧
    (register R t).length = R.length + 1 ∧
    ((∀ t2 ∈ R, t2.name ≠ name) →
      invokeTool R name q = Except.error (RegError.unknownTool name)) := by
  refine ⟨?_, by simp [register], ?_⟩
  · rw [register, List.take_left]
  · intro hnone
    have hfind : R.find? (fun t2 => decide (t2.name = name)) = none := by
      rw [List.find?_eq_none]
      intro x hx
      simp [hnone x hx]
    simp [invokeTool, hfind]

/-- Witness for C3's amended statement: duplicate-name registration on a
one-tool registry, and invocation of a missing name. -/
theorem C3_register_appends_and_unknown_tool_witness :
    (register [toolA] toolB).take 1 = [toolA] ∧
    (register [toolA] toolB).length = 2 ∧
    invokeTool [toolA] "missing".data "q".data =
      Except.error (RegError.unknownTool "missing".data) := by
  have h := C3_register_appends_and_unknown_tool [toolA] toolB "missing".data "q".data
  refine ⟨h.1, h.2.1, h.2.2 ?_⟩
  intro t2 ht2
  rw [List.mem_singleton] at ht2
  subst ht2
  decide

/-! ## Ingestion-loop lemmas (claims C2, C10, C9, C7) -/

theorem processFile_unknown_skip (o : Oracles) (f : UploadedFile)
    (h : classifyName f.name = ArtifactKind.unknown) :
    processFile o f = .skipUnsupported (unsupportedMsg (lowerStr f.name)) := by
  have hft : fileTypeOf (lowerStr f.name) = FileType.unsupported := by
    unfold classifyName at h
    cases hc : fileTypeOf (lowerStr f.name) <;> rw [hc] at h <;>
      simp [kindOfType] at h ⊢
  simp [processFile, hft]

theorem ingestFiles_tools_filterMap (o : Oracles) :
    ∀ files, (ingestFiles o files).1 =
      files.filterMap (fun f => toolOf (processFile o f)) := by
  intro files
  induction files with
  | nil => rfl
  | cons f fs ih =>
    cases hp : processFile o f <;>
      simp [ingestFiles, hp, toolOf, List.filterMap_cons, ih]

theorem ingestFiles_skip_middle (o : Oracles) (u : UploadedFile)
    (hu : toolOf (processFile o u) = none) (pre post : List UploadedFile) :
    (ingestFiles o (pre ++ u :: post)).1 = (ingestFiles o (pre ++ post)).1 := by
  rw [ingestFiles_tools_filterMap, ingestFiles_tools_filterMap]
  simp [List.filterMap_append, List.filterMap_cons, hu]

theorem ingestFiles_report_mem (o : Oracles) (u : UploadedFile) (m : List Char)
    (hm : processFile o u = .skipUnsupported m) :
    ∀ pre post, m ∈ (ingestFiles o (pre ++ u :: post)).2 := by
  intro pre post
  induction pre with
  | nil => simp [ingestFiles, hm]
  | cons f fs ih =>
    cases hp : processFile o f with
    | tool t => simpa [ingestFiles, hp] using ih
    | skipUnsupported m2 =>
      simp only [List.cons_append, ingestFiles, hp, List.mem_cons]
      exact Or.inr ih
    | errorReport m2 =>
      simp only [List.cons_append, ingestFiles, hp, List.mem_cons]
      exact Or.inr ih

/-- C2: an artifact of unknown kind is skipped with a reported warning,
its exclusion leaves ingestion of every other artifact unaffected, and
the registry always consists of exactly the tools of the successfully
ingested artifacts, in order. -/
theorem C2_partial_failure_tolerance (o : Oracles) (u : UploadedFile)
    (pre post : List UploadedFile)
    (h : classifyName u.name = ArtifactKind.unknown) :
    processFile o u = .skipUnsupported (unsupportedMsg (lowerStr u.name)) ∧
    unsupportedMsg (lowerStr u.name) ∈ (ingestFiles o (pre ++ u :: post)).2 ∧
    (ingestFiles o (pre ++ u :: post)).1 = (ingestFiles o (pre ++ post)).1 ∧
    (∀ files, (ingestFiles o files).1 =
      files.filterMap (fun f => toolOf (processFile o f))) := by
  have hskip := processFile_unknown_skip o u h
  exact ⟨hskip, ingestFiles_report_mem o u _ hskip pre post,
    ingestFiles_skip_middle o u (by rw [hskip]; rfl) pre post,
    ingestFiles_tools_filterMap o⟩

/-- Witness for C2: a `.txt` upload between a spreadsheet upload and
nothing, under the concrete oracles. -/
theorem C2_partial_failure_tolerance_witness :
    classifyName uNotes.name = ArtifactKind.unknown ∧
    (processFile noopOracles uNotes =
        .skipUnsupported (unsupportedMsg (lowerStr uNotes.name)) ∧
      unsupportedMsg (lowerStr uNotes.name) ∈
        (ingestFiles noopOracles ([uCsv] ++ uNotes :: [])).2 ∧
      (ingestFiles noopOracles ([uCsv] ++ uNotes :: [])).1 =
        (ingestFiles noopOracles ([uCsv] ++ [])).1 ∧
      (∀ files, (ingestFiles noopOracles files).1 =
        files.filterMap (fun f => toolOf (processFile noopOracles f)))) :=
  ⟨by decide, C2_partial_failure_tolerance noopOracles uNotes [uCsv] [] (by decide)⟩

/-- C10: the suffix dispatch is case-insensitive — names with equal
lowercasings are classified identically — and any name whose lowercased
form ends in none of the nine recognized suffixes is classified unknown
and, in the ingestion loop, skipped. -/
theorem C10_case_insensitive_dispatch (s t u : List Char) (o : Oracles)
    (f : UploadedFile) :
    (lowerStr s = lowerStr t → classifyName s = classifyName t) ∧
    ((".pdf".data.isSuffixOf (lowerStr u) = false ∧
      ".docx".data.isSuffixOf (lowerStr u) = false ∧
      ".pptx".data.isSuffixOf (lowerStr u) = false ∧
      ".jpg".data.isSuffixOf (lowerStr u) = false ∧
      ".jpeg".data.isSuffixOf (lowerStr u) = false ∧
      ".png".data.isSuffixOf (lowerStr u) = false ∧
      ".csv".data.isSuffixOf (lowerStr u) = false ∧
      ".xls".data.isSuffixOf (lowerStr u) = false ∧
      ".xlsx".data.isSuffixOf (lowerStr u) = false) →
      classifyName u = ArtifactKind.unknown) ∧
    (classifyName f.name = ArtifactKind.unknown →
      processFile o f = .skipUnsupported (unsupportedMsg (lowerStr f.name))) := by
  refine ⟨?_, ?_, processFile_unknown_skip o f⟩
  · intro hst
    unfold classifyName
    rw [hst]
  · intro hsuf
    obtain ⟨h1, h2, h3, h4, h5, h6, h7, h8, h9⟩ := hsuf
    simp [classifyName, fileTypeOf, h1, h2, h3, h4, h5, h6, h7, h8, h9, kindOfType]

/-- Witness for C10: a case variant of a pdf name, a `.txt` name, and a
`.zip` upload. -/
theorem C10_case_insensitive_dispatch_witness :
    (lowerStr "Report.PDF".data = lowerStr "report.pdf".data ∧
      classifyName "Report.PDF".data = classifyName "report.pdf".data) ∧
    classifyName "notes.txt".data = ArtifactKind.unknown ∧
    processFile noopOracles uZip =
      .skipUnsupported (unsupportedMsg (lowerStr uZip.name)) := by
  have h := C10_case_insensitive_dispatch "Report.PDF".data "report.pdf".data
    "notes.txt".data noopOracles uZip
  exact ⟨⟨by decide, h.1 (by decide)⟩, h.2.1 (by decide), h.2.2 (by decide)⟩

/-- C9 (code bug): for every image-kind artifact whose OCR succeeds, the
source wraps the recognized text in a plain dict, the `isinstance(...,
str)` test at line 108 therefore fails, and `split_documents` raises
`AttributeError` on the dict — so processing ends in the per-file error
report and no retrieval tool is registered, contradicting the claimed
image → chunker → index → tool flow. -/
theorem C9_image_path_attribute_error (o : Oracles) (f : UploadedFile)
    (text : List Char)
    (himg : fileTypeOf (lowerStr f.name) = FileType.image)
    (hocr : o.ocrImage f = Except.ok text) :
    processFile o f = .errorReport (processErrMsg (lowerStr f.name)
      "AttributeError: dict object has no attribute page_content".data) := by
  simp [processFile, himg, hocr, docBranch, vectorStage, splitDocumentsModel,
    pageContentAttr]

/-- Witness for C9: a `.png` upload whose OCR yields text. -/
theorem C9_image_path_attribute_error_witness :
    fileTypeOf (lowerStr uScan.name) = FileType.image ∧
    noopOracles.ocrImage uScan = Except.ok "scanned text".data ∧
    processFile noopOracles uScan = .errorReport (processErrMsg (lowerStr uScan.name)
      "AttributeError: dict object has no attribute page_content".data) :=
  ⟨by decide, rfl,
    C9_image_path_attribute_error noopOracles uScan "scanned text".data (by decide) rfl⟩

/-- C7: building an index from an empty chunk sequence fails with
`IndexBuildError`, and whenever the vectorization stage of a document
branch fails, the per-file handler reports the error and no tool (hence
no partially-built index) becomes visible. -/
theorem C7_empty_build_fails (embed : List Char → Nat) (o : Oracles)
    (filename : List Char) (loaded : Except (List Char) (List PyDoc))
    (documents : List PyDoc) (e : List Char)
    (hload : loaded = Except.ok documents)
    (hstage : vectorStage o documents = Except.error e) :
    buildIndex embed [] = Except.error indexBuildErrorMsg ∧
    docBranch o filename loaded = .errorReport (processErrMsg filename e) := by
  subst hload
  exact ⟨rfl, by simp [docBranch, hstage]⟩

/-- Witness for C7: a document list whose vectorization fails. -/
theorem C7_empty_build_fails_witness :
    (Except.ok [PyDoc.dict []] : Except (List Char) (List PyDoc)) =
      Except.ok [PyDoc.dict []] ∧
    vectorStage noopOracles [PyDoc.dict []] =
      Except.error "AttributeError: dict object has no attribute page_content".data ∧
    buildIndex noopOracles.embed [] = Except.error indexBuildErrorMsg ∧
    docBranch noopOracles "broken.pdf".data (Except.ok [PyDoc.dict []]) =
      .errorReport (processErrMsg "broken.pdf".data
        "AttributeError: dict object has no attribute page_content".data) := by
  have h := C7_empty_build_fails noopOracles.embed noopOracles "broken.pdf".data
    (Except.ok [PyDoc.dict []]) [PyDoc.dict []]
    "AttributeError: dict object has no attribute page_content".data rfl rfl
  exact ⟨rfl, rfl, h.1, h.2⟩

/-! ## Embedding-index lemmas (claim C8) -/

theorem distN_self (a : Nat) : distN a a = 0 := by
  simp [distN]

theorem distN_eq_zero {a b : Nat} (h : distN a b = 0) : a = b := by
  unfold distN at h
  omega

theorem sortByKey_head_min (key : List Char × Nat → Nat) :
    ∀ (l : List (List Char × Nat)), l ≠ [] →
      ∃ hd tl, sortByKey key l = hd :: tl ∧ hd ∈ l ∧ ∀ z ∈ l, key hd ≤ key z := by
  intro l
  induction l with
  | nil => intro hne; exact absurd rfl hne
  | cons x xs ih =>
    intro _
    by_cases hxs : xs = []
    · subst hxs
      refine ⟨x, [], rfl, by simp, ?_⟩
      intro z hz
      rw [List.mem_singleton] at hz
      subst hz
      exact Nat.le_refl _
    · obtain ⟨hd, tl, heq, hmem, hmin⟩ := ih hxs
      by_cases hk : key x ≤ key hd
      · refine ⟨x, hd :: tl, ?_, by simp, ?_⟩
        · simp [sortByKey, heq, insertByKey, hk]
        · intro z hz
          rcases List.mem_cons.mp hz with rfl | hz2
          · exact Nat.le_refl _
          · exact Nat.le_trans hk (hmin z hz2)
      · refine ⟨hd, insertByKey key x tl, ?_, List.mem_cons_of_mem x hmem, ?_⟩
        · simp [sortByKey, heq, insertByKey, hk]
        · intro z hz
          rcases List.mem_cons.mp hz with rfl | hz2
          · exact Nat.le_of_lt (Nat.lt_of_not_le hk)
          · exact hmin z hz2

/-- C8: for every embedding function that separates the chunks of a
non-empty chunk set, and every chunk `c` of that set, querying the index
built from the set with `c`'s own text at `k = 1` — the query embedded
with the same embedding function as the chunks — returns exactly `[c]`. -/
theorem C8_self_retrieval (embed : List Char → Nat) (chunks : List (List Char))
    (c : List Char) (idx : VectorIndex)
    (hc : c ∈ chunks)
    (hinj : ∀ x ∈ chunks, ∀ y ∈ chunks, embed x = embed y → x = y)
    (hbuild : buildIndex embed chunks = Except.ok idx) :
    queryIndex embed idx c 1 = [c] := by
  cases chunks with
  | nil => cases hc
  | cons c0 cs =>
    have hidx : idx = (c0 :: cs).map (fun t => (t, embed t)) := by
      have h1 := hbuild
      simp only [buildIndex, Except.ok.injEq] at h1
      exact h1.symm
    obtain ⟨hd, tl, heq, hmem, hmin⟩ :=
      sortByKey_head_min (fun p => distN p.2 (embed c)) idx
        (by rw [hidx]; simp)
    have hcmem : (c, embed c) ∈ idx := by
      rw [hidx]
      exact List.mem_map_of_mem _ hc
    have hle := hmin (c, embed c) hcmem
    simp only [distN_self, Nat.le_zero] at hle
    obtain ⟨x, hx, hxe⟩ := by
      rw [hidx] at hmem
      exact List.mem_map.mp hmem
    have hh1 : hd.1 = x := by rw [← hxe]
    have hh2 : hd.2 = embed x := by rw [← hxe]
    have hembed : embed x = embed c := by
      rw [hh2] at hle
      exact distN_eq_zero hle
    have hxc : x = c := hinj x hx c hc hembed
    simp [queryIndex, heq, hh1, hxc]

/-- Witness for C8: two one-character chunks under the head-code-point
embedding. -/
theorem C8_self_retrieval_witness :
    (['a'] ∈ [['a'], ['b']]) ∧
    (∀ x ∈ [['a'], ['b']], ∀ y ∈ [['a'], ['b']], embedHead x = embedHead y → x = y) ∧
    buildIndex embedHead [['a'], ['b']] = Except.ok [(['a'], 97), (['b'], 98)] ∧
    queryIndex embedHead [(['a'], 97), (['b'], 98)] ['a'] 1 = [['a']] :=
  ⟨by decide, by decide, rfl,
    C8_self_retrieval embedHead [['a'], ['b']] ['a'] [(['a'], 97), (['b'], 98)]
      (by decide) (by decide) rfl⟩
